import Mathlib

/-!
Verification development for the IELTS speaking-evaluation pipeline
(Supabase edge functions plus SQL migrations).

The definitions below are shallow embeddings of the TypeScript/SQL source:

* band arithmetic and overall-band derivation
  (`calculateBand`, `computeOverallBandFromQuestionBands`, the precedence
  expressions of the sync and the async evaluation function);
* retry backoff (`exponentialBackoffWithJitter`);
* quota bookkeeping (`isQuotaExhaustedToday`, `getQuotaFieldNames`,
  `markKeyQuotaExhausted`, the PostgREST filter of
  `getActiveGeminiKeysForModel`, the quota reset sweep);
* the credential-pool checkout/release SQL functions
  (`checkout_api_key`);
* segment parsing, ordering and attachment sequencing of both
  evaluation entry points;
* the key/model/attempt rotation loop of the sync evaluation function
  with its terminal classification;
* the background job state machine (job creation with cancellation of
  prior jobs, and the watchdog).

Conventions: JavaScript numbers that carry band scores are modelled as
rationals; dates (ISO `YYYY-MM-DD` strings, whose lexicographic order
coincides with day order) and timestamps are modelled as naturals;
`undefined`/`null` become `Option`.  `Math.round` is
`fun x => Int.floor (x + 1/2)`, which agrees with JavaScript on all
inputs.  Database rows are records; a table is a list of rows; each SQL
statement / PostgREST call is an atomic transition on the table, which
is exactly the atomicity the storage layer provides (the checkout
function runs `SELECT ... FOR UPDATE SKIP LOCKED` plus an `UPDATE`
inside one transaction, so concurrent checkouts serialize).
-/

namespace SpeakingEval

/-- JavaScript `Math.round`: round half toward positive infinity. -/
def jsRound (x : ℚ) : ℤ := ⌊x + 1/2⌋

/-- Source `Math.round(x * 2) / 2` — round to the nearest half point. -/
def roundHalf (x : ℚ) : ℚ := (jsRound (2 * x) : ℚ) / 2

/-- The four criterion band slots of the model response
(`criteria.fluency_coherence.band` etc.); `none` models an absent or
non-numeric band, matching the `typeof s === 'number'` filter. -/
structure CriteriaBands where
  fluency_coherence : Option ℚ
  lexical_resource : Option ℚ
  grammatical_range : Option ℚ
  pronunciation : Option ℚ
deriving DecidableEq, Repr

/-- One `modelAnswers` entry as consumed by
`computeOverallBandFromQuestionBands`: the part number and the
`estimatedBand` (`none` when `Number(...)` is not finite). -/
structure ModelAnswer where
  partNumber : ℤ
  estimatedBand : Option ℚ
deriving DecidableEq, Repr

/-- The parsed model response, restricted to the fields the band
derivation reads.  `overall_band = none` models an absent / non-numeric
explicit overall score. -/
structure EvalResult where
  overall_band : Option ℚ
  criteria : Option CriteriaBands
  modelAnswers : List ModelAnswer
deriving DecidableEq, Repr

/-- Source `calculateBand` (identical in the sync and the async function):
average the numeric criterion bands, round to the nearest half, default
to `6.0` when the criteria object is absent or carries no numeric band.
No clamping happens on this path. -/
def calculateBand (r : EvalResult) : ℚ :=
  match r.criteria with
  | none => 6
  | some c =>
    let scores := [c.fluency_coherence, c.lexical_resource,
                   c.grammatical_range, c.pronunciation].filterMap id
    if scores = [] then 6
    else roundHalf (scores.sum / scores.length)

/-- The weight table of `computeOverallBandFromQuestionBands`:
part 2 weighs 2.0, part 3 weighs 1.5, anything else 1.0. -/
def weightForPart (p : ℤ) : ℚ :=
  if p = 2 then 2 else if p = 3 then 3/2 else 1

/-- The usable per-question bands: entries whose part is 1, 2 or 3 and
whose `estimatedBand` is a finite number. -/
def usableBands (answers : List ModelAnswer) : List (ℤ × ℚ) :=
  answers.filterMap fun a =>
    if a.partNumber = 1 ∨ a.partNumber = 2 ∨ a.partNumber = 3 then
      a.estimatedBand.map fun b => (a.partNumber, b)
    else none

/-- Source `computeOverallBandFromQuestionBands` (sync function only): weighted
average of the usable per-question bands, rounded to the nearest half
and clamped into `[1, 9]`; `null` when no band is usable. -/
def computeOverallBandFromQuestionBands (r : EvalResult) : Option ℚ :=
  let bands := usableBands r.modelAnswers
  if bands = [] then none
  else
    let weighted := bands.foldl
      (fun acc x => (acc.1 + x.2 * weightForPart x.1, acc.2 + weightForPart x.1))
      ((0 : ℚ), (0 : ℚ))
    if weighted.2 ≤ 0 then none
    else some (min 9 (max 1 (roundHalf (weighted.1 / weighted.2))))

/-- The overall-band precedence expression of the sync function
(`evaluate-speaking-submission`):
`typeof overall_band === 'number' ? overall_band
 : derivedFromQuestions ?? derivedFromCriteria`.
An explicit overall score is used verbatim. -/
def syncOverallBand (r : EvalResult) : ℚ :=
  match r.overall_band with
  | some b => b
  | none => (computeOverallBandFromQuestionBands r).getD (calculateBand r)

/-- The overall-band expression of the async function
(`evaluate-speaking-async`): `overall_band || calculateBand(result)` —
a falsy explicit score (absent or `0`) falls back to the criteria
average; the per-question weighted path is not consulted here. -/
def asyncOverallBand (r : EvalResult) : ℚ :=
  match r.overall_band with
  | some b => if b = 0 then calculateBand r else b
  | none => calculateBand r

/-- Source `exponentialBackoffWithJitter(attempt, baseDelayMs, maxDelayMs)`
with `Math.random()` made explicit as the parameter `rand ∈ [0, 1)`:
`round(min(base * 2^attempt, max) + rand * min(base * 2^attempt, max) * 0.5)`. -/
def exponentialBackoffWithJitter (attempt baseDelayMs maxDelayMs : ℕ) (rand : ℚ) : ℤ :=
  let exponentialDelay : ℚ := min ((baseDelayMs : ℚ) * 2 ^ attempt) (maxDelayMs : ℚ)
  jsRound (exponentialDelay + rand * exponentialDelay * (1/2))

/-- Source `isQuotaExhaustedToday(exhaustedDate)`, parameterized by the
current date: an exhaustion is only valid on the very day it was
recorded.  `none` models a null/undefined/empty date (all falsy). -/
def isQuotaExhaustedToday (exhaustedDate : Option ℕ) (today : ℕ) : Bool :=
  match exhaustedDate with
  | none => false
  | some d => d == today

/-- An `api_keys` row as read through the shared quota utilities:
provider, active flag and the five legacy per-category quota buckets
(`tts`, `flash_2_5`, `flash_lite`, `pro_3_0`, `exp_pro`). -/
structure ApiKeyRecord where
  provider : String
  is_active : Bool
  error_count : ℕ
  tts_quota_exhausted : Option Bool
  tts_quota_exhausted_date : Option ℕ
  flash_2_5_quota_exhausted : Option Bool
  flash_2_5_quota_exhausted_date : Option ℕ
  flash_lite_quota_exhausted : Option Bool
  flash_lite_quota_exhausted_date : Option ℕ
  pro_3_0_quota_exhausted : Option Bool
  pro_3_0_quota_exhausted_date : Option ℕ
  exp_pro_quota_exhausted : Option Bool
  exp_pro_quota_exhausted_date : Option ℕ
deriving DecidableEq, Repr

/-- Source `getQuotaFieldNames(modelType)`: the switch mapping a model
category to its pair of column names; the `flash_2_5` case and the
`default` case share one branch. -/
def getQuotaFieldNames (modelType : String) : String × String :=
  if modelType = "tts" then
    ("tts_quota_exhausted", "tts_quota_exhausted_date")
  else if modelType = "flash_lite" then
    ("flash_lite_quota_exhausted", "flash_lite_quota_exhausted_date")
  else if modelType = "pro_3_0" then
    ("pro_3_0_quota_exhausted", "pro_3_0_quota_exhausted_date")
  else if modelType = "exp_pro" then
    ("exp_pro_quota_exhausted", "exp_pro_quota_exhausted_date")
  else
    ("flash_2_5_quota_exhausted", "flash_2_5_quota_exhausted_date")

/-- Dynamic column read of a quota flag, as the PostgREST filter does
with the field name produced by `getQuotaFieldNames`. -/
def readQuotaFlag (r : ApiKeyRecord) (field : String) : Option Bool :=
  if field = "tts_quota_exhausted" then r.tts_quota_exhausted
  else if field = "flash_2_5_quota_exhausted" then r.flash_2_5_quota_exhausted
  else if field = "flash_lite_quota_exhausted" then r.flash_lite_quota_exhausted
  else if field = "pro_3_0_quota_exhausted" then r.pro_3_0_quota_exhausted
  else if field = "exp_pro_quota_exhausted" then r.exp_pro_quota_exhausted
  else none

/-- Dynamic column read of a quota date. -/
def readQuotaDate (r : ApiKeyRecord) (field : String) : Option ℕ :=
  if field = "tts_quota_exhausted_date" then r.tts_quota_exhausted_date
  else if field = "flash_2_5_quota_exhausted_date" then r.flash_2_5_quota_exhausted_date
  else if field = "flash_lite_quota_exhausted_date" then r.flash_lite_quota_exhausted_date
  else if field = "pro_3_0_quota_exhausted_date" then r.pro_3_0_quota_exhausted_date
  else if field = "exp_pro_quota_exhausted_date" then r.exp_pro_quota_exhausted_date
  else none

/-- Dynamic column write of a quota flag (`updateData[quotaField] = v`). -/
def writeQuotaFlag (r : ApiKeyRecord) (field : String) (v : Bool) : ApiKeyRecord :=
  if field = "tts_quota_exhausted" then { r with tts_quota_exhausted := some v }
  else if field = "flash_2_5_quota_exhausted" then { r with flash_2_5_quota_exhausted := some v }
  else if field = "flash_lite_quota_exhausted" then { r with flash_lite_quota_exhausted := some v }
  else if field = "pro_3_0_quota_exhausted" then { r with pro_3_0_quota_exhausted := some v }
  else if field = "exp_pro_quota_exhausted" then { r with exp_pro_quota_exhausted := some v }
  else r

/-- Dynamic column write of a quota date. -/
def writeQuotaDate (r : ApiKeyRecord) (field : String) (v : Option ℕ) : ApiKeyRecord :=
  if field = "tts_quota_exhausted_date" then { r with tts_quota_exhausted_date := v }
  else if field = "flash_2_5_quota_exhausted_date" then { r with flash_2_5_quota_exhausted_date := v }
  else if field = "flash_lite_quota_exhausted_date" then { r with flash_lite_quota_exhausted_date := v }
  else if field = "pro_3_0_quota_exhausted_date" then { r with pro_3_0_quota_exhausted_date := v }
  else if field = "exp_pro_quota_exhausted_date" then { r with exp_pro_quota_exhausted_date := v }
  else r

/-- Source `markKeyQuotaExhausted(keyId, modelType)`, applied to the targeted
row: sets the category's flag to true and its date to today. -/
def markKeyQuotaExhausted (modelType : String) (today : ℕ) (r : ApiKeyRecord) : ApiKeyRecord :=
  let fields := getQuotaFieldNames modelType
  writeQuotaDate (writeQuotaFlag r fields.1 true) fields.2 (some today)

/-- The quota part of the `getActiveGeminiKeysForModel` PostgREST
filter: `quotaField.is.null OR quotaField.eq.false OR
quotaDateField.lt.today` — a stale (prior-day) exhaustion passes. -/
def quotaVisible (modelType : String) (today : ℕ) (r : ApiKeyRecord) : Bool :=
  let fields := getQuotaFieldNames modelType
  match readQuotaFlag r fields.1 with
  | none => true
  | some false => true
  | some true =>
    match readQuotaDate r fields.2 with
    | none => false
    | some d => decide (d < today)

/-- The whole row filter of `getActiveGeminiKeysForModel`:
`provider = 'gemini' AND is_active AND` the quota disjunction. -/
def getActiveFilter (modelType : String) (today : ℕ) (r : ApiKeyRecord) : Bool :=
  r.provider == "gemini" && r.is_active && quotaVisible modelType today r

/-- Whether some legacy bucket of the row is stale — flag set with a
date strictly before today (the `WHERE` of
`reset_api_key_model_quotas`, restricted to the five legacy buckets
this development models). -/
def anyStaleBucket (today : ℕ) (r : ApiKeyRecord) : Bool :=
  let stale : Option Bool → Option ℕ → Bool := fun f d =>
    f == some true && (match d with | some x => decide (x < today) | none => false)
  stale r.tts_quota_exhausted r.tts_quota_exhausted_date ||
  stale r.flash_2_5_quota_exhausted r.flash_2_5_quota_exhausted_date ||
  stale r.flash_lite_quota_exhausted r.flash_lite_quota_exhausted_date ||
  stale r.pro_3_0_quota_exhausted r.pro_3_0_quota_exhausted_date ||
  stale r.exp_pro_quota_exhausted r.exp_pro_quota_exhausted_date

/-- The per-row effect of `reset_api_key_quotas` (the sweep run by
`getActiveGeminiKeysForModel` before fetching): rows that are active
and have some stale bucket get every bucket cleared. -/
def resetStaleRow (today : ℕ) (r : ApiKeyRecord) : ApiKeyRecord :=
  if r.is_active && anyStaleBucket today r then
    { r with
      tts_quota_exhausted := some false, tts_quota_exhausted_date := none,
      flash_2_5_quota_exhausted := some false, flash_2_5_quota_exhausted_date := none,
      flash_lite_quota_exhausted := some false, flash_lite_quota_exhausted_date := none,
      pro_3_0_quota_exhausted := some false, pro_3_0_quota_exhausted_date := none,
      exp_pro_quota_exhausted := some false, exp_pro_quota_exhausted_date := none }
  else r

/-- Source `getActiveGeminiKeysForModel` as a table transformation: the stale
sweep followed by the row filter (the `error_count` ordering is kept
by `List.filter`, which preserves relative order after a stable sort
upstream; membership is what the claims consult). -/
def getActiveGeminiKeysForModel (modelType : String) (today : ℕ)
    (table : List ApiKeyRecord) : List ApiKeyRecord :=
  (table.map (resetStaleRow today)).filter (getActiveFilter modelType today)

/-- The model-category argument the sync evaluation function actually
passes to `getActiveGeminiKeysForModel` and `markKeyQuotaExhausted`
(source: `evaluate-speaking-submission`, the `'flash'` literal). -/
def syncEvalQuotaCategory : String := "flash"

/-- An `api_keys` row as read by the SQL `checkout_api_key` function:
lock columns plus the per-model exhaustion columns its `CASE` consults
(these are the `gemini_*` columns of the 2026-01-14 migration, distinct
from the legacy buckets above). -/
structure PoolKey where
  id : ℕ
  key_value : String
  is_active : Bool
  locked_by_job_id : Option ℕ
  locked_until : Option ℕ
  updated_at : ℕ
  gemini_2_5_flash_exhausted : Option Bool
  gemini_2_5_flash_exhausted_date : Option ℕ
  gemini_2_0_flash_exhausted : Option Bool
  gemini_2_0_flash_exhausted_date : Option ℕ
deriving DecidableEq, Repr

/-- Condition `locked_by_job_id IS NULL OR locked_until < now()` (a SQL
comparison against a NULL `locked_until` is not true). -/
def lockFree (now : ℕ) (k : PoolKey) : Bool :=
  match k.locked_by_job_id with
  | none => true
  | some _ =>
    match k.locked_until with
    | some t => decide (t < now)
    | none => false

/-- The quota `CASE` of `checkout_api_key`: only the flag is consulted
(`COALESCE(col, false) = false`); the exhaustion date is ignored, and
unknown model names always pass. -/
def checkoutQuotaOk (p_model_name : String) (k : PoolKey) : Bool :=
  if p_model_name = "gemini-2.5-flash" then
    k.gemini_2_5_flash_exhausted.getD false == false
  else if p_model_name = "gemini-2.0-flash" then
    k.gemini_2_0_flash_exhausted.getD false == false
  else true

/-- The full `WHERE` clause of the checkout `SELECT`. -/
def checkoutEligible (now : ℕ) (p_model_name : String) (k : PoolKey) : Bool :=
  k.is_active && lockFree now k && checkoutQuotaOk p_model_name k

/-- Fold step realizing `ORDER BY updated_at ASC LIMIT 1`: keep the
earliest-updated row seen so far (first one wins ties, matching an
arbitrary-but-fixed scan order). -/
def pickOlder (acc : Option PoolKey) (k : PoolKey) : Option PoolKey :=
  match acc with
  | none => some k
  | some b => if k.updated_at < b.updated_at then some k else some b

/-- The row selected by the checkout `SELECT`. -/
def checkoutSelect (now : ℕ) (p_model_name : String) (pool : List PoolKey) :
    Option PoolKey :=
  (pool.filter (checkoutEligible now p_model_name)).foldl pickOlder none

/-- Source `checkout_api_key(p_job_id, p_model_name, p_lock_minutes)`:
select one eligible row (atomically, thanks to
`FOR UPDATE SKIP LOCKED` inside the transaction), lock it until
`now + p_lock_minutes` and return its id and secret; return the empty
result (no exception) when no row qualifies.  Time is counted in
minutes. -/
def checkout_api_key (now p_job_id : ℕ) (p_model_name : String)
    (p_lock_minutes : ℕ) (pool : List PoolKey) :
    Option (ℕ × String) × List PoolKey :=
  match checkoutSelect now p_model_name pool with
  | none => (none, pool)
  | some k =>
    (some (k.id, k.key_value),
     pool.map fun x =>
       if x.id = k.id then
         { x with locked_by_job_id := some p_job_id,
                  locked_until := some (now + p_lock_minutes),
                  updated_at := now }
       else x)

/-- Source `release_api_key(p_job_id)`: clear every lock held by the job. -/
def release_api_key (now p_job_id : ℕ) (pool : List PoolKey) : List PoolKey :=
  pool.map fun x =>
    if x.locked_by_job_id = some p_job_id then
      { x with locked_by_job_id := none, locked_until := none, updated_at := now }
    else x

/-- Job states of `speaking_evaluation_jobs`. -/
inductive JobStatus
  | pending
  | processing
  | completed
  | failed
deriving DecidableEq, Repr

/-- A non-terminal status (`IN ('pending', 'processing')`). -/
def JobStatus.nonTerminal (s : JobStatus) : Bool :=
  s == .pending || s == .processing

/-- A `speaking_evaluation_jobs` row, restricted to the columns the
lifecycle transitions touch. -/
structure JobRow where
  id : ℕ
  user_id : ℕ
  test_id : ℕ
  status : JobStatus
  last_error : Option String
deriving DecidableEq, Repr

/-- The cancellation message written when a new submission supersedes
running jobs. -/
def cancelMessage : String := "Cancelled: User submitted a new evaluation request."

/-- The watchdog's failure message. -/
def timeoutMessage : String :=
  "Evaluation timed out in background processing. Please resubmit."

/-- The watchdog delay (`WATCHDOG_MS = 12 * 60 * 1000`). -/
def WATCHDOG_MS : ℕ := 12 * 60 * 1000

/-- Job creation in `evaluate-speaking-async` (non-retry path): every
pending/processing job of the same `(user, test)` pair is first updated
to `failed` with the cancellation message, then the new `pending` row
is inserted. -/
def createJob (table : List JobRow) (u t newId : ℕ) : List JobRow :=
  (table.map fun j =>
    if j.user_id = u ∧ j.test_id = t ∧ j.status.nonTerminal then
      { j with status := .failed, last_error := some cancelMessage }
    else j)
  ++ [{ id := newId, user_id := u, test_id := t, status := .pending, last_error := none }]

/-- The watchdog body, run once `WATCHDOG_MS` after job start: read the
job row (`maybeSingle`); if it is gone or already terminal, do nothing;
otherwise force it to `failed` with the timeout message. -/
def watchdogFire (table : List JobRow) (jobId : ℕ) : List JobRow :=
  match table.find? (fun j => j.id == jobId) with
  | none => table
  | some cur =>
    if cur.status = .completed ∨ cur.status = .failed then table
    else
      table.map fun j =>
        if j.id = jobId then
          { j with status := .failed, last_error := some timeoutMessage }
        else j

/-- A question's metadata inside the test payload. -/
structure QInfo where
  questionNumber : ℤ
  questionText : String
deriving DecidableEq, Repr

/-- One entry of `segmentMetaByKey` / `orderedSegments`. -/
structure SegMeta where
  segmentKey : String
  partNumber : ℕ
  questionNumber : ℤ
  questionText : String
deriving DecidableEq, Repr

/-- The `^part([123])-q(.+)$` segment-key pattern: part digit and the
question id (nonempty). -/
def parseSegKey (s : String) : Option (ℕ × String) :=
  match s.data with
  | 'p' :: 'a' :: 'r' :: 't' :: d :: '-' :: 'q' :: rest =>
    if rest = [] then none
    else if d = '1' then some (1, String.mk rest)
    else if d = '2' then some (2, String.mk rest)
    else if d = '3' then some (3, String.mk rest)
    else none
  | _ => none

/-- Building `segmentMetaByKey` from the `filePaths` entries (keys of a
JS object are distinct, so first-insertion order is iteration order):
keep the keys that match the pattern and whose question id is known. -/
def parsedSegments (filePaths : List (String × String))
    (questionById : List (String × QInfo)) : List SegMeta :=
  filePaths.filterMap fun kv =>
    match parseSegKey kv.1 with
    | none => none
    | some pq =>
      (questionById.lookup pq.2).map fun q =>
        { segmentKey := kv.1, partNumber := pq.1,
          questionNumber := q.questionNumber, questionText := q.questionText }

/-- The sort order of `orderedSegments`: the JS comparator
`a.partNumber - b.partNumber || a.questionNumber - b.questionNumber`
keeps `a` before `b` exactly when this relation holds. -/
def segLE (a b : SegMeta) : Prop :=
  a.partNumber < b.partNumber ∨
    (a.partNumber = b.partNumber ∧ a.questionNumber ≤ b.questionNumber)

/-- Strict version of the segment order. -/
def segLT (a b : SegMeta) : Prop :=
  a.partNumber < b.partNumber ∨
    (a.partNumber = b.partNumber ∧ a.questionNumber < b.questionNumber)

instance : DecidableRel segLE := fun a b => by
  unfold segLE; infer_instance

instance : DecidableRel segLT := fun a b => by
  unfold segLT; infer_instance

instance : IsTotal SegMeta segLE where
  total a b := by
    unfold segLE
    rcases Nat.lt_trichotomy a.partNumber b.partNumber with h | h | h
    · exact Or.inl (Or.inl h)
    · rcases le_total a.questionNumber b.questionNumber with h2 | h2
      · exact Or.inl (Or.inr ⟨h, h2⟩)
      · exact Or.inr (Or.inr ⟨h.symm, h2⟩)
    · exact Or.inr (Or.inl h)

instance : IsTrans SegMeta segLE where
  trans a b c hab hbc := by
    unfold segLE at *
    rcases hab with h1 | ⟨e1, q1⟩ <;> rcases hbc with h2 | ⟨e2, q2⟩
    · exact Or.inl (h1.trans h2)
    · exact Or.inl (e2 ▸ h1)
    · exact Or.inl (e1 ▸ h2)
    · exact Or.inr ⟨e1.trans e2, q1.trans q2⟩

instance : IsAntisymm SegMeta segLT where
  antisymm a b hab hba := by
    unfold segLT at *
    exfalso
    rcases hab with h1 | ⟨e1, q1⟩ <;> rcases hba with h2 | ⟨e2, q2⟩
    · omega
    · omega
    · omega
    · omega

/-- Source `orderedSegments` (identical in both entry points): the parsed
segments sorted by part then question number.  Both JS `Array.sort`
and `List.insertionSort` are stable sorts for the same total preorder,
hence produce the same list. -/
def orderedSegments (filePaths : List (String × String))
    (questionById : List (String × QInfo)) : List SegMeta :=
  (parsedSegments filePaths questionById).insertionSort segLE

/-- The async entry point's audio attachment sequence, identified by
segment key: files are downloaded, uploaded and placed into
`contentParts` by iterating `orderedSegments` (run with every download
succeeding; a path lookup always succeeds because every ordered segment
key is a `filePaths` key). -/
def asyncAttachmentKeys (filePaths : List (String × String))
    (questionById : List (String × QInfo)) : List String :=
  (orderedSegments filePaths questionById).map SegMeta.segmentKey

/-- The sync entry point's audio attachment sequence: `audioFiles` is
built by iterating `Object.entries(filePaths)` directly, so attachments
are transmitted in map-iteration order (and unparseable keys are kept,
too). -/
def syncAttachmentKeys (filePaths : List (String × String)) : List String :=
  filePaths.map Prod.fst

/-- The classification-relevant content of a model-call error, with the
string heuristics made explicit as booleans: `quotaLike` is
`isQuotaExhaustedError(err) || status === 429 || status === 403`,
`permSignal` is `isPermanentQuotaExhausted(err)`, `retryAfter` is
`extractRetryAfterSeconds(err)`. -/
structure ErrInfo where
  quotaLike : Bool
  permSignal : Bool
  retryAfter : Option ℕ
deriving DecidableEq, Repr

/-- One `model.generateContent` call as the sync loop observes it:
either a response (whose text is non-empty and JSON-parseable, or not),
or a thrown error. -/
inductive CallResult
  | ok (parsed : Bool)
  | err (e : ErrInfo)
deriving DecidableEq, Repr

/-- The environment: what the model endpoint returns for key index `k`,
model index `m`, attempt `a`. -/
def CallEnv : Type := ℕ → ℕ → ℕ → CallResult

/-- The code's error taxonomy at the failure site. -/
inductive FailKind
  | transientFail
  | permanentFail
  | otherFail
deriving DecidableEq, Repr

/-- Computation `permanent = isPermanentQuotaExhausted(err) || retryAfter === undefined`. -/
def errPermanent (e : ErrInfo) : Bool :=
  e.permSignal || e.retryAfter == none

/-- Classify an observed error the way the sync loop's branches do. -/
def errKind (e : ErrInfo) : FailKind :=
  if !e.quotaLike then .otherFail
  else if errPermanent e then .permanentFail
  else .transientFail

/-- Outcome of one model's attempt loop (`for attempt in 0..1`). -/
inductive ModelOutcome
  | gotResult
  | fellThrough
  | quotaStop (permanent : Bool) (retryAfter : Option ℕ)
deriving DecidableEq, Repr

/-- The attempt loop of the sync function for key `k` and model `m`:
at most two attempts; a temporary rate limit with a positive suggested
delay at attempt 0 sets the `sawTemporaryRateLimit` flag, records the
delay and retries the same model once; any other quota-like error is
deferred (`lastQuotaError`) to the model loop.  Returns the outcome,
the flag delta, the recorded delays, and the event log (one entry per
caught error, in the code's taxonomy). -/
def runModelAttempts (env : CallEnv) (k m : ℕ) :
    ModelOutcome × Bool × List ℕ × List FailKind :=
  match env k m 0 with
  | .ok true => (.gotResult, false, [], [])
  | .ok false => (.fellThrough, false, [], [])
  | .err e =>
    if !e.quotaLike then (.fellThrough, false, [], [.otherFail])
    else if errPermanent e = false ∧ ∃ r, e.retryAfter = some r ∧ 0 < r then
      -- temporary rate limit, wait and retry the SAME model (attempt 1)
      let r := e.retryAfter.getD 0
      match env k m 1 with
      | .ok true => (.gotResult, true, [r], [.transientFail])
      | .ok false => (.fellThrough, true, [r], [.transientFail])
      | .err e2 =>
        if !e2.quotaLike then (.fellThrough, true, [r], [.transientFail, .otherFail])
        else (.quotaStop (errPermanent e2) e2.retryAfter, true, [r],
              [.transientFail, errKind e2])
    else (.quotaStop (errPermanent e) e.retryAfter, false, [], [errKind e])

/-- How one key's try block ends. -/
inductive KeyRunEnd
  | success
  | exhaustedModels
  | thrown (permanent : Bool) (retryAfter : Option ℕ)
deriving DecidableEq, Repr

/-- The model loop for key `k` over the remaining model indices: a
deferred quota error on the last model is thrown to the key-level
handler, otherwise the next model is tried. -/
def runModels (env : CallEnv) (k : ℕ) :
    List ℕ → KeyRunEnd × Bool × List ℕ × List FailKind
  | [] => (.exhaustedModels, false, [], [])
  | m :: rest =>
    match runModelAttempts env k m with
    | (.gotResult, st, rs, evs) => (.success, st, rs, evs)
    | (.fellThrough, st, rs, evs) =>
      match runModels env k rest with
      | (e2, st2, rs2, evs2) => (e2, st || st2, rs ++ rs2, evs ++ evs2)
    | (.quotaStop p r, st, rs, evs) =>
      if rest = [] then (.thrown p r, st, rs, evs)
      else
        match runModels env k rest with
        | (e2, st2, rs2, evs2) => (e2, st || st2, rs ++ rs2, evs ++ evs2)

/-- A key-queue entry (`KeyCandidate`): pool id if pool-owned. -/
structure KeyCandidate where
  keyId : Option ℕ
  isUserProvided : Bool
deriving DecidableEq, Repr

/-- The driver state threaded through the key loop; `events` is a ghost
log of every caught error in the code's own taxonomy. -/
structure DriverState where
  success : Bool
  sawTemporaryRateLimit : Bool
  retryCandidates : List ℕ
  markedExhausted : List ℕ
  events : List FailKind
deriving DecidableEq, Repr

/-- The initial driver state. -/
def initDriverState : DriverState :=
  { success := false, sawTemporaryRateLimit := false, retryCandidates := [],
    markedExhausted := [], events := [] }

/-- The two models of the priority list, by index. -/
def geminiModelIdxs : List ℕ := [0, 1]

/-- One iteration of the key loop (`for candidateKey of keyQueue`),
including the key-level `QuotaError` handler: a permanent error marks a
pool-owned key exhausted and advances; a temporary one sets the
`sawTemporaryRateLimit` flag, records a positive suggested delay and
advances. -/
def runKey (env : CallEnv) (idx : ℕ) (cand : KeyCandidate)
    (st : DriverState) : DriverState :=
  if st.success then st
  else
    match runModels env idx geminiModelIdxs with
    | (kend, stemp, rs, evs) =>
      let base : DriverState :=
        { st with sawTemporaryRateLimit := st.sawTemporaryRateLimit || stemp,
                  retryCandidates := st.retryCandidates ++ rs,
                  events := st.events ++ evs }
      match kend with
      | .success => { base with success := true }
      | .exhaustedModels => base
      | .thrown p r =>
        if p then
          { base with markedExhausted := base.markedExhausted ++
              (if cand.isUserProvided then []
               else match cand.keyId with | some kid => [kid] | none => []) }
        else
          { base with sawTemporaryRateLimit := true,
                      retryCandidates := base.retryCandidates ++
                        (match r with
                         | some rr => if 0 < rr then [rr] else []
                         | none => []) }

/-- The whole key loop. -/
def runQueue (env : CallEnv) : ℕ → List KeyCandidate → DriverState → DriverState
  | _, [], st => st
  | i, c :: cs, st => runQueue env (i + 1) cs (runKey env i c st)

/-- Source `bestRetryAfterSeconds`: the minimum of the recorded delays. -/
def bestRetryOf (l : List ℕ) : Option ℕ :=
  l.foldl (fun acc r =>
    match acc with
    | none => some r
    | some b => some (min b r)) none

/-- The terminal classification of the request. -/
inductive TerminalOutcome
  | succeeded
  | rateLimited (retryAfterSeconds : ℕ)
  | allKeysExhausted
deriving DecidableEq, Repr

/-- The sync function's final branch: with no evaluation result, a 429
`RATE_LIMITED` response (delay `bestRetryAfterSeconds ?? 60`) when
`sawTemporaryRateLimit` is set, else a 503 `ALL_KEYS_EXHAUSTED`. -/
def terminalOutcome (st : DriverState) : TerminalOutcome :=
  if st.success then .succeeded
  else if st.sawTemporaryRateLimit then
    .rateLimited ((bestRetryOf st.retryCandidates).getD 60)
  else .allKeysExhausted

/-- Run the whole sync evaluation loop for a key queue. -/
def runSyncEvaluation (env : CallEnv) (queue : List KeyCandidate) : DriverState :=
  runQueue env 0 queue initDriverState

/-- The weighted-average formula in the spec's wording: per-item scores
weighted part 2 by 2.0, part 3 by 1.5, part 1 by 1.0 — sum of weighted
bands over sum of weights — then rounded to the nearest half and
clamped into `[1, 9]`. -/
def weightedBandSpec (bands : List (ℤ × ℚ)) : ℚ :=
  min 9 (max 1 (roundHalf
    ((bands.map fun x => x.2 * weightForPart x.1).sum /
     (bands.map fun x => weightForPart x.1).sum)))

/-- A model response carrying an explicit overall score of 7.3 (not a
half-point value). -/
def sampleExplicitResult : EvalResult :=
  { overall_band := some (73/10), criteria := none, modelAnswers := [] }

/-- A model response with no explicit overall score, no per-item bands,
and four out-of-range criterion bands of 11. -/
def sampleOverrangeResult : EvalResult :=
  { overall_band := none,
    criteria := some { fluency_coherence := some 11, lexical_resource := some 11,
                       grammatical_range := some 11, pronunciation := some 11 },
    modelAnswers := [] }

/-- A `filePaths` object whose iteration order is not the
(part, question) order: part 2 comes first. -/
def cexFilePaths : List (String × String) :=
  [("part2-qB", "audio/b.webm"), ("part1-qA", "audio/a.webm")]

/-- The matching question catalogue for `cexFilePaths`. -/
def cexQuestionById : List (String × QInfo) :=
  [("A", { questionNumber := 1, questionText := "qa" }),
   ("B", { questionNumber := 1, questionText := "qb" })]

/-- The same two `filePaths` entries in the opposite iteration order. -/
def cexFilePathsPermuted : List (String × String) :=
  [("part1-qA", "audio/a.webm"), ("part2-qB", "audio/b.webm")]

/-- An endpoint behaviour mixing failure kinds on a single key: the
first call is a temporary rate limit with a 5 s suggested delay; every
later call is a permanent quota/billing error. -/
def cexEnv : CallEnv := fun _ m a =>
  if m = 0 ∧ a = 0 then .err { quotaLike := true, permSignal := false, retryAfter := some 5 }
  else .err { quotaLike := true, permSignal := true, retryAfter := none }

/-- A queue holding one pool-owned key with id 7. -/
def cexQueue : List KeyCandidate := [{ keyId := some 7, isUserProvided := false }]

/-- An endpoint behaviour where every call is a temporary rate limit
with a 3 s suggested delay. -/
def allTransientEnv : CallEnv := fun _ _ _ =>
  .err { quotaLike := true, permSignal := false, retryAfter := some 3 }

/-- A pool key that is active and unlocked but whose
`gemini_2_5_flash_exhausted` flag is still set from day 5. -/
def staleFlagKey : PoolKey :=
  { id := 1, key_value := "K1", is_active := true, locked_by_job_id := none,
    locked_until := none, updated_at := 3,
    gemini_2_5_flash_exhausted := some true, gemini_2_5_flash_exhausted_date := some 5,
    gemini_2_0_flash_exhausted := none, gemini_2_0_flash_exhausted_date := none }

/-- An active gemini row whose `flash_2_5` bucket was marked exhausted
on day 5. -/
def staleFlagRecord : ApiKeyRecord :=
  { provider := "gemini", is_active := true, error_count := 0,
    tts_quota_exhausted := none, tts_quota_exhausted_date := none,
    flash_2_5_quota_exhausted := some true, flash_2_5_quota_exhausted_date := some 5,
    flash_lite_quota_exhausted := none, flash_lite_quota_exhausted_date := none,
    pro_3_0_quota_exhausted := none, pro_3_0_quota_exhausted_date := none,
    exp_pro_quota_exhausted := none, exp_pro_quota_exhausted_date := none }

/-- A fully clean active gemini row. -/
def cleanRecord : ApiKeyRecord :=
  { provider := "gemini", is_active := true, error_count := 0,
    tts_quota_exhausted := none, tts_quota_exhausted_date := none,
    flash_2_5_quota_exhausted := none, flash_2_5_quota_exhausted_date := none,
    flash_lite_quota_exhausted := none, flash_lite_quota_exhausted_date := none,
    pro_3_0_quota_exhausted := none, pro_3_0_quota_exhausted_date := none,
    exp_pro_quota_exhausted := none, exp_pro_quota_exhausted_date := none }

/-- A two-key pool: key 1 is eligible for checkout, key 2 is inactive. -/
def samplePool : List PoolKey :=
  [{ id := 1, key_value := "K1", is_active := true, locked_by_job_id := none,
     locked_until := none, updated_at := 3,
     gemini_2_5_flash_exhausted := none, gemini_2_5_flash_exhausted_date := none,
     gemini_2_0_flash_exhausted := none, gemini_2_0_flash_exhausted_date := none },
   { id := 2, key_value := "K2", is_active := false, locked_by_job_id := none,
     locked_until := none, updated_at := 1,
     gemini_2_5_flash_exhausted := none, gemini_2_5_flash_exhausted_date := none,
     gemini_2_0_flash_exhausted := none, gemini_2_0_flash_exhausted_date := none }]

/-- A job table holding one `processing` job for user 10, test 20. -/
def sampleJobTable : List JobRow :=
  [{ id := 1, user_id := 10, test_id := 20, status := .processing, last_error := none }]

/-! ## Helper lemmas -/

theorem weightForPart_pos (p : ℤ) : 0 < weightForPart p := by
  unfold weightForPart
  split_ifs <;> norm_num

theorem weightSum_nonneg (l : List (ℤ × ℚ)) :
    0 ≤ (l.map fun x => weightForPart x.1).sum := by
  induction l with
  | nil => simp
  | cons a l ih =>
    simp only [List.map_cons, List.sum_cons]
    have := weightForPart_pos a.1
    linarith

theorem weightSum_pos (l : List (ℤ × ℚ)) (h : l ≠ []) :
    0 < (l.map fun x => weightForPart x.1).sum := by
  cases l with
  | nil => exact absurd rfl h
  | cons a l =>
    simp only [List.map_cons, List.sum_cons]
    have h1 := weightForPart_pos a.1
    have h2 := weightSum_nonneg l
    linarith

theorem foldl_weighted (l : List (ℤ × ℚ)) :
    ∀ a b : ℚ,
      l.foldl (fun acc x => (acc.1 + x.2 * weightForPart x.1, acc.2 + weightForPart x.1)) (a, b)
        = (a + (l.map fun x => x.2 * weightForPart x.1).sum,
           b + (l.map fun x => weightForPart x.1).sum) := by
  induction l with
  | nil => intro a b; simp
  | cons x l ih =>
    intro a b
    simp only [List.foldl_cons, List.map_cons, List.sum_cons]
    rw [ih]
    simp only [Prod.mk.injEq]
    constructor <;> ring

theorem usableBands_eq_nil (answers : List ModelAnswer)
    (h : ∀ a ∈ answers, a.estimatedBand = none ∨
          (a.partNumber ≠ 1 ∧ a.partNumber ≠ 2 ∧ a.partNumber ≠ 3)) :
    usableBands answers = [] := by
  induction answers with
  | nil => rfl
  | cons a l ih =>
    have ha := h a (List.mem_cons_self a l)
    have hl := ih fun x hx => h x (List.mem_cons_of_mem a hx)
    unfold usableBands at *
    have hhead : (fun a : ModelAnswer =>
        if a.partNumber = 1 ∨ a.partNumber = 2 ∨ a.partNumber = 3 then
          a.estimatedBand.map fun b => (a.partNumber, b)
        else none) a = none := by
      rcases ha with hb | ⟨h1, h2, h3⟩
      · simp [hb]
      · simp [h1, h2, h3]
    simp only [List.filterMap_cons, hhead]
    exact hl

/-! ## C8 — backoff bound -/

/-- Claim C8: for attempt `a`, base `b > 0`, cap `m` and jitter draw
`rand ∈ [0, 1)`, the delay returned by `exponentialBackoffWithJitter`
lies between `min(b·2^a, m)` and `1.5 · min(b·2^a, m)`, and hence never
exceeds `1.5·m`. -/
theorem backoff_bounds (a b m : ℕ) (rand : ℚ)
    (hb : 0 < b) (hr0 : 0 ≤ rand) (hr1 : rand < 1) :
    (min ((b : ℚ) * 2 ^ a) (m : ℚ)) ≤ (exponentialBackoffWithJitter a b m rand : ℚ)
    ∧ (exponentialBackoffWithJitter a b m rand : ℚ) ≤ 3/2 * min ((b : ℚ) * 2 ^ a) (m : ℚ)
    ∧ (exponentialBackoffWithJitter a b m rand : ℚ) ≤ 3/2 * (m : ℚ) := by
  have hEN : min ((b : ℚ) * 2 ^ a) (m : ℚ) = ((min (b * 2 ^ a) m : ℕ) : ℚ) := by
    push_cast
    rfl
  have hval : exponentialBackoffWithJitter a b m rand
      = jsRound (((min (b * 2 ^ a) m : ℕ) : ℚ)
          + rand * ((min (b * 2 ^ a) m : ℕ) : ℚ) * (1/2)) := by
    unfold exponentialBackoffWithJitter
    rw [hEN]
  have hNm : ((min (b * 2 ^ a) m : ℕ) : ℚ) ≤ (m : ℚ) := by
    exact_mod_cast Nat.min_le_right (b * 2 ^ a) m
  rw [hEN, hval]
  generalize min (b * 2 ^ a) m = N at hNm ⊢
  have hN0 : (0 : ℚ) ≤ (N : ℚ) := by positivity
  have hq : jsRound ((N : ℚ) + rand * (N : ℚ) * (1/2))
      = ⌊(N : ℚ) + rand * (N : ℚ) * (1/2) + 1/2⌋ := rfl
  have hrandN : 0 ≤ rand * (N : ℚ) * (1/2) := by positivity
  have hlow : (N : ℚ) ≤ (jsRound ((N : ℚ) + rand * (N : ℚ) * (1/2)) : ℚ) := by
    rw [hq]
    have h1 : ((N : ℤ) : ℚ) ≤ (N : ℚ) + rand * (N : ℚ) * (1/2) + 1/2 := by
      push_cast
      linarith
    have h2 := Int.le_floor.mpr h1
    exact_mod_cast h2
  have hup : (jsRound ((N : ℚ) + rand * (N : ℚ) * (1/2)) : ℚ) ≤ 3/2 * (N : ℚ) := by
    rw [hq]
    rcases Nat.eq_zero_or_pos N with h0 | hpos
    · subst h0
      norm_num
    · have hNQ : (0 : ℚ) < (N : ℚ) := by exact_mod_cast hpos
      have hxstrict : (N : ℚ) + rand * (N : ℚ) * (1/2) < 3/2 * (N : ℚ) := by nlinarith
      have h1 : (⌊(N : ℚ) + rand * (N : ℚ) * (1/2) + 1/2⌋ : ℚ)
          ≤ (N : ℚ) + rand * (N : ℚ) * (1/2) + 1/2 := Int.floor_le _
      have h2 : (2 * ⌊(N : ℚ) + rand * (N : ℚ) * (1/2) + 1/2⌋ : ℚ) < 3 * (N : ℚ) + 1 := by
        linarith
      have h3 : (2 * ⌊(N : ℚ) + rand * (N : ℚ) * (1/2) + 1/2⌋ : ℤ) < 3 * (N : ℤ) + 1 := by
        exact_mod_cast h2
      have h4 : (2 * ⌊(N : ℚ) + rand * (N : ℚ) * (1/2) + 1/2⌋ : ℤ) ≤ 3 * (N : ℤ) := by omega
      have h5 : (2 * ⌊(N : ℚ) + rand * (N : ℚ) * (1/2) + 1/2⌋ : ℚ) ≤ 3 * (N : ℚ) := by
        exact_mod_cast h4
      linarith
  exact ⟨hlow, hup, by linarith⟩

/-- Witness for C8 at attempt 1, base 1000 ms, cap 60000 ms, jitter
draw 1/2: the returned delay is 2500 and the bounds hold. -/
theorem backoff_bounds_witness :
    (0 < 1000 ∧ (0 : ℚ) ≤ 1/2 ∧ (1/2 : ℚ) < 1) ∧
    (min ((1000 : ℚ) * 2 ^ 1) (60000 : ℚ)
        ≤ (exponentialBackoffWithJitter 1 1000 60000 (1/2) : ℚ)
      ∧ (exponentialBackoffWithJitter 1 1000 60000 (1/2) : ℚ)
        ≤ 3/2 * min ((1000 : ℚ) * 2 ^ 1) (60000 : ℚ)
      ∧ (exponentialBackoffWithJitter 1 1000 60000 (1/2) : ℚ) ≤ 3/2 * (60000 : ℚ)) :=
  ⟨⟨by norm_num, by norm_num, by norm_num⟩,
   backoff_bounds 1 1000 60000 (1/2) (by norm_num) (by norm_num) (by norm_num)⟩

/-! ## C9 — quota-category aliasing -/

/-- Claim C9: every model-category string other than `tts`,
`flash_lite`, `pro_3_0` and `exp_pro` — in particular the literal
`'flash'` the sync function passes — is sent to the `flash_2_5` bucket:
the field-name mapping yields the `flash_2_5` columns, the exhaustion
mark writes them, and the active-key filter reads them, exactly as for
`flash_2_5` itself. -/
theorem quota_alias_default (mt : String) (today : ℕ) (r : ApiKeyRecord)
    (h1 : mt ≠ "tts") (h2 : mt ≠ "flash_lite") (h3 : mt ≠ "pro_3_0")
    (h4 : mt ≠ "exp_pro") :
    getQuotaFieldNames mt = ("flash_2_5_quota_exhausted", "flash_2_5_quota_exhausted_date")
    ∧ markKeyQuotaExhausted mt today r = markKeyQuotaExhausted "flash_2_5" today r
    ∧ getActiveFilter mt today r = getActiveFilter "flash_2_5" today r
    ∧ (markKeyQuotaExhausted mt today r).flash_2_5_quota_exhausted = some true
    ∧ (markKeyQuotaExhausted mt today r).flash_2_5_quota_exhausted_date = some today := by
  have hf : getQuotaFieldNames mt =
      ("flash_2_5_quota_exhausted", "flash_2_5_quota_exhausted_date") := by
    unfold getQuotaFieldNames
    rw [if_neg h1, if_neg h2, if_neg h3, if_neg h4]
  have hf25 : getQuotaFieldNames "flash_2_5" =
      ("flash_2_5_quota_exhausted", "flash_2_5_quota_exhausted_date") := by
    decide
  refine ⟨hf, ?_, ?_, ?_, ?_⟩
  · unfold markKeyQuotaExhausted
    rw [hf, hf25]
  · unfold getActiveFilter quotaVisible
    rw [hf, hf25]
  · unfold markKeyQuotaExhausted
    rw [hf]
    simp [writeQuotaFlag, writeQuotaDate]
  · unfold markKeyQuotaExhausted
    rw [hf]
    simp [writeQuotaFlag, writeQuotaDate]

/-- Witness for C9 at the category string `'flash'` that the sync
evaluation function actually passes, on a clean row at day 7. -/
theorem quota_alias_default_witness :
    (syncEvalQuotaCategory ≠ "tts" ∧ syncEvalQuotaCategory ≠ "flash_lite"
      ∧ syncEvalQuotaCategory ≠ "pro_3_0" ∧ syncEvalQuotaCategory ≠ "exp_pro") ∧
    (getQuotaFieldNames syncEvalQuotaCategory
        = ("flash_2_5_quota_exhausted", "flash_2_5_quota_exhausted_date")
      ∧ markKeyQuotaExhausted syncEvalQuotaCategory 7 cleanRecord
        = markKeyQuotaExhausted "flash_2_5" 7 cleanRecord
      ∧ getActiveFilter syncEvalQuotaCategory 7 cleanRecord
        = getActiveFilter "flash_2_5" 7 cleanRecord
      ∧ (markKeyQuotaExhausted syncEvalQuotaCategory 7 cleanRecord).flash_2_5_quota_exhausted
        = some true
      ∧ (markKeyQuotaExhausted syncEvalQuotaCategory 7 cleanRecord).flash_2_5_quota_exhausted_date
        = some 7) :=
  ⟨⟨by decide, by decide, by decide, by decide⟩,
   quota_alias_default syncEvalQuotaCategory 7 cleanRecord
     (by decide) (by decide) (by decide) (by decide)⟩

/-! ## C10 — fabricated default band -/

/-- Claim C10: when the response has no numeric explicit overall score,
no usable per-item band and no numeric criterion band, `calculateBand`
returns the constant 6.0, and both entry points report overall band 6.0
— a job can complete with band 6.0 although no score was present in the
model output. -/
theorem fabricated_default_band (r : EvalResult)
    (hov : r.overall_band = none)
    (hans : ∀ a ∈ r.modelAnswers, a.estimatedBand = none ∨
        (a.partNumber ≠ 1 ∧ a.partNumber ≠ 2 ∧ a.partNumber ≠ 3))
    (hcrit : r.criteria = none ∨ ∃ c, r.criteria = some c
        ∧ c.fluency_coherence = none ∧ c.lexical_resource = none
        ∧ c.grammatical_range = none ∧ c.pronunciation = none) :
    calculateBand r = 6 ∧ syncOverallBand r = 6 ∧ asyncOverallBand r = 6 := by
  have hcalc : calculateBand r = 6 := by
    unfold calculateBand
    rcases hcrit with h | ⟨c, hc, h1, h2, h3, h4⟩
    · rw [h]
    · rw [hc]
      simp [h1, h2, h3, h4]
  have hcomp : computeOverallBandFromQuestionBands r = none := by
    unfold computeOverallBandFromQuestionBands
    rw [usableBands_eq_nil r.modelAnswers hans]
    rfl
  refine ⟨hcalc, ?_, ?_⟩
  · unfold syncOverallBand
    rw [hov, hcomp, hcalc]
    rfl
  · unfold asyncOverallBand
    rw [hov, hcalc]

/-- Witness for C10: the empty model response yields overall band 6.0
on every path. -/
theorem fabricated_default_band_witness :
    (({ overall_band := none, criteria := none, modelAnswers := [] } : EvalResult).overall_band
       = none) ∧
    (calculateBand { overall_band := none, criteria := none, modelAnswers := [] } = 6
      ∧ syncOverallBand { overall_band := none, criteria := none, modelAnswers := [] } = 6
      ∧ asyncOverallBand { overall_band := none, criteria := none, modelAnswers := [] } = 6) :=
  ⟨rfl,
   fabricated_default_band { overall_band := none, criteria := none, modelAnswers := [] }
     rfl (by simp) (Or.inl rfl)⟩

/-! ## C5 — score derivation precedence and normalization -/

/-- Counterexample to C5: an explicit overall score of 7.3 is returned
verbatim by the sync assembler, although rounding-and-clamping would
give 7.5 — the explicit path neither rounds nor clamps.  Moreover the
criteria-average path does not clamp: four criterion bands of 11 yield
an overall band of 11, outside 1–9. -/
theorem score_precedence_cex :
    syncOverallBand sampleExplicitResult = 73/10
    ∧ min 9 (max 1 (roundHalf (73/10))) = 15/2
    ∧ (73/10 : ℚ) ≠ 15/2
    ∧ syncOverallBand sampleOverrangeResult = 11
    ∧ ¬ syncOverallBand sampleOverrangeResult ≤ 9 := by
  have hround : roundHalf (73/10) = 15/2 := by
    unfold roundHalf jsRound
    norm_num
  have hband : syncOverallBand sampleOverrangeResult = 11 := by
    show (computeOverallBandFromQuestionBands sampleOverrangeResult).getD
      (calculateBand sampleOverrangeResult) = 11
    have hcomp : computeOverallBandFromQuestionBands sampleOverrangeResult = none := rfl
    have hcalc : calculateBand sampleOverrangeResult = 11 := by
      show roundHalf (([ (11:ℚ), 11, 11, 11].sum) / ([(11:ℚ), 11, 11, 11].length)) = 11
      unfold roundHalf jsRound
      norm_num
    rw [hcomp, hcalc]
    rfl
  refine ⟨rfl, ?_, by norm_num, hband, ?_⟩
  · rw [hround]
    norm_num
  · rw [hband]
    norm_num

/-- Amended C5: the sync assembler uses an explicit overall score
verbatim (no rounding, no clamping); otherwise, if usable per-item
bands exist, it returns the weighted average (part 2 × 2.0,
part 3 × 1.5, part 1 × 1.0) rounded to the nearest half-point and
clamped into 1–9; otherwise it returns the criteria average rounded to
the nearest half-point but not clamped (6.0 when no criterion band is
numeric). -/
theorem score_precedence_amended (r : EvalResult) :
    syncOverallBand r =
      match r.overall_band with
      | some b => b
      | none =>
        if usableBands r.modelAnswers = [] then calculateBand r
        else weightedBandSpec (usableBands r.modelAnswers) := by
  unfold syncOverallBand
  cases hov : r.overall_band with
  | some b => rfl
  | none =>
    unfold computeOverallBandFromQuestionBands
    by_cases hnil : usableBands r.modelAnswers = []
    · simp [hnil]
    · rw [if_neg hnil, if_neg hnil]
      rw [foldl_weighted]
      have hw : 0 < (0 : ℚ) + ((usableBands r.modelAnswers).map fun x => weightForPart x.1).sum := by
        have := weightSum_pos (usableBands r.modelAnswers) hnil
        linarith
      rw [if_neg (by simpa using (by linarith : ¬ ((0:ℚ) + ((usableBands r.modelAnswers).map fun x => weightForPart x.1).sum ≤ 0)))]
      unfold weightedBandSpec
      simp

/-! ## C6 — at-most-one active job per (user, test) -/

/-- Claim C6: creating a new evaluation job for `(u, t)` fails every
prior pending/processing job for that pair with the cancellation
message, and immediately afterwards the new pending job is the only
non-terminal job for the pair. -/
theorem createJob_single_active (table : List JobRow) (u t newId : ℕ)
    (j : JobRow) (hj : j ∈ table) (hu : j.user_id = u) (ht : j.test_id = t)
    (hnt : j.status.nonTerminal = true) :
    ((createJob table u t newId).filter fun x =>
        x.user_id == u && x.test_id == t && x.status.nonTerminal)
      = [{ id := newId, user_id := u, test_id := t, status := .pending,
           last_error := none }]
    ∧ ({ j with status := .failed, last_error := some cancelMessage } : JobRow)
        ∈ createJob table u t newId := by
  constructor
  · unfold createJob
    rw [List.filter_append]
    have hmap : ((table.map fun x =>
        if x.user_id = u ∧ x.test_id = t ∧ x.status.nonTerminal then
          { x with status := .failed, last_error := some cancelMessage }
        else x).filter fun x =>
          x.user_id == u && x.test_id == t && x.status.nonTerminal) = [] := by
      rw [List.filter_eq_nil_iff]
      intro x hx
      obtain ⟨y, hymem, hy⟩ := List.mem_map.mp hx
      have hy2 : (if y.user_id = u ∧ y.test_id = t ∧ y.status.nonTerminal = true then
          ({ y with status := .failed, last_error := some cancelMessage } : JobRow)
        else y) = x := hy
      intro hpred
      simp only [Bool.and_eq_true, beq_iff_eq] at hpred
      obtain ⟨⟨h1, h2⟩, h3⟩ := hpred
      by_cases hc : y.user_id = u ∧ y.test_id = t ∧ y.status.nonTerminal = true
      · rw [if_pos hc] at hy2
        subst hy2
        simp [JobStatus.nonTerminal] at h3
      · rw [if_neg hc] at hy2
        subst hy2
        exact hc ⟨h1, h2, h3⟩
    rw [hmap]
    simp [JobStatus.nonTerminal]
  · unfold createJob
    apply List.mem_append_left
    exact List.mem_map.mpr ⟨j, hj, if_pos ⟨hu, ht, hnt⟩⟩

/-- Witness for C6: creating a job (id 2) for user 10, test 20 while
the processing job 1 exists leaves exactly the new pending job
non-terminal for the pair, and job 1 is failed with the cancellation
message. -/
theorem createJob_single_active_witness :
    (({ id := 1, user_id := 10, test_id := 20, status := .processing,
        last_error := none } : JobRow) ∈ sampleJobTable) ∧
    (((createJob sampleJobTable 10 20 2).filter fun x =>
        x.user_id == 10 && x.test_id == 20 && x.status.nonTerminal)
      = [{ id := 2, user_id := 10, test_id := 20, status := .pending,
           last_error := none }]
    ∧ ({ id := 1, user_id := 10, test_id := 20, status := .failed,
         last_error := some cancelMessage } : JobRow)
        ∈ createJob sampleJobTable 10 20 2) :=
  ⟨by decide,
   createJob_single_active sampleJobTable 10 20 2
     { id := 1, user_id := 10, test_id := 20, status := .processing, last_error := none }
     (by decide) rfl rfl rfl⟩

/-! ## C7 — watchdog termination -/

/-- Claim C7: when the watchdog deadline elapses, a job still
pending/processing is transitioned to failed with the timeout message
by the watchdog alone (every row with its id is failed afterwards);
a job already completed or failed is left untouched — the table is
unchanged. -/
theorem watchdog_forces_failure (table : List JobRow) (jobId : ℕ) (j : JobRow)
    (hfind : table.find? (fun x => x.id == jobId) = some j) :
    (j.status.nonTerminal = true →
       ({ j with status := .failed, last_error := some timeoutMessage } : JobRow)
           ∈ watchdogFire table jobId
       ∧ ∀ x ∈ watchdogFire table jobId, x.id = jobId → x.status = .failed)
    ∧ ((j.status = .completed ∨ j.status = .failed) →
         watchdogFire table jobId = table) := by
  have hjid : j.id = jobId := by
    have := List.find?_some hfind
    simpa using this
  have hjmem : j ∈ table := List.mem_of_find?_eq_some hfind
  constructor
  · intro hnt
    have hterm : ¬ (j.status = .completed ∨ j.status = .failed) := by
      cases hs : j.status <;> simp [JobStatus.nonTerminal, hs] at hnt ⊢
    have hfire : watchdogFire table jobId = table.map fun x =>
        if x.id = jobId then
          { x with status := .failed, last_error := some timeoutMessage }
        else x := by
      unfold watchdogFire
      rw [hfind]
      show (if j.status = .completed ∨ j.status = .failed then table
            else table.map fun x =>
              if x.id = jobId then
                { x with status := .failed, last_error := some timeoutMessage }
              else x)
          = table.map fun x =>
              if x.id = jobId then
                { x with status := .failed, last_error := some timeoutMessage }
              else x
      rw [if_neg hterm]
    constructor
    · rw [hfire]
      exact List.mem_map.mpr ⟨j, hjmem, if_pos hjid⟩
    · intro x hx hxid
      rw [hfire] at hx
      obtain ⟨y, hymem, hy⟩ := List.mem_map.mp hx
      have hy2 : (if y.id = jobId then
          ({ y with status := .failed, last_error := some timeoutMessage } : JobRow)
        else y) = x := hy
      by_cases hc : y.id = jobId
      · rw [if_pos hc] at hy2
        subst hy2
        rfl
      · rw [if_neg hc] at hy2
        subst hy2
        exact absurd hxid hc
  · intro hterm
    unfold watchdogFire
    rw [hfind]
    exact if_pos hterm

/-- Witness for C7: the watchdog fails the stuck processing job 1 (and
a completed job table is left unchanged by a separate direct check in
the hypothesis conjunct). -/
theorem watchdog_forces_failure_witness :
    (sampleJobTable.find? (fun x => x.id == 1)
       = some { id := 1, user_id := 10, test_id := 20, status := .processing,
                last_error := none }) ∧
    ((({ id := 1, user_id := 10, test_id := 20, status := .processing,
         last_error := none } : JobRow).status.nonTerminal = true →
        ({ id := 1, user_id := 10, test_id := 20, status := .failed,
           last_error := some timeoutMessage } : JobRow) ∈ watchdogFire sampleJobTable 1
        ∧ ∀ x ∈ watchdogFire sampleJobTable 1, x.id = 1 → x.status = .failed)
     ∧ ((({ id := 1, user_id := 10, test_id := 20, status := .processing,
            last_error := none } : JobRow).status = .completed ∨
         ({ id := 1, user_id := 10, test_id := 20, status := .processing,
            last_error := none } : JobRow).status = .failed) →
          watchdogFire sampleJobTable 1 = sampleJobTable)) :=
  ⟨by decide,
   watchdog_forces_failure sampleJobTable 1
     { id := 1, user_id := 10, test_id := 20, status := .processing, last_error := none }
     (by decide)⟩

/-! ## C1 — credential checkout mutual exclusion -/

theorem foldl_pickOlder_mem :
    ∀ (l : List PoolKey) (acc : Option PoolKey) (k : PoolKey),
      l.foldl pickOlder acc = some k → acc = some k ∨ k ∈ l := by
  intro l
  induction l with
  | nil => intro acc k h; exact Or.inl h
  | cons x xs ih =>
    intro acc k h
    rw [List.foldl_cons] at h
    rcases ih (pickOlder acc x) k h with h2 | h2
    · cases acc with
      | none =>
        have h3 : some x = some k := h2
        obtain rfl := Option.some.inj h3
        exact Or.inr (List.mem_cons_self x xs)
      | some b =>
        have h3 : (if x.updated_at < b.updated_at then some x else some b) = some k := h2
        by_cases hlt : x.updated_at < b.updated_at
        · rw [if_pos hlt] at h3
          obtain rfl := Option.some.inj h3
          exact Or.inr (List.mem_cons_self x xs)
        · rw [if_neg hlt] at h3
          obtain rfl := Option.some.inj h3
          exact Or.inl rfl
    · exact Or.inr (List.mem_cons_of_mem x h2)

theorem checkoutSelect_mem (now : ℕ) (model : String) (pool : List PoolKey)
    (k : PoolKey) (h : checkoutSelect now model pool = some k) :
    k ∈ pool.filter (checkoutEligible now model) := by
  unfold checkoutSelect at h
  rcases foldl_pickOlder_mem _ none k h with h2 | h2
  · exact absurd h2 (by simp)
  · exact h2

theorem lockedKey_not_eligible (now jid lm : ℕ) (model : String) (k : PoolKey) :
    checkoutEligible now model
      { k with locked_by_job_id := some jid,
               locked_until := some (now + lm), updated_at := now } = false := by
  unfold checkoutEligible lockFree
  simp only [Bool.and_eq_false_iff]
  left
  right
  simp only [decide_eq_false_iff_not, not_lt]
  omega

/-- Claim C1: the checkout select-and-lock is mutually exclusive.
(i) A successful checkout returns only a credential that was active and
unlocked-or-expired (and quota-admitted) and locks that credential for
the requesting job until `now + lockMinutes`.
(ii) Two checkouts at the same instant (their serialization, enforced
by the transactional `FOR UPDATE SKIP LOCKED` select) never return the
same credential id.
(iii) When exactly one credential is eligible, the first call obtains
it and the second receives the explicit empty outcome, not an
exception. -/
theorem checkout_api_key_exclusive (now j1 j2 lm : ℕ) (model : String)
    (pool : List PoolKey) :
    (∀ a, (checkout_api_key now j1 model lm pool).1 = some a →
       ∃ kk ∈ pool, checkoutEligible now model kk = true
         ∧ a = (kk.id, kk.key_value)
         ∧ ({ kk with locked_by_job_id := some j1,
                      locked_until := some (now + lm), updated_at := now } : PoolKey)
             ∈ (checkout_api_key now j1 model lm pool).2)
    ∧ (∀ a b, (checkout_api_key now j1 model lm pool).1 = some a →
        (checkout_api_key now j2 model lm
          (checkout_api_key now j1 model lm pool).2).1 = some b →
        a.1 ≠ b.1)
    ∧ (∀ k, pool.filter (checkoutEligible now model) = [k] →
        (checkout_api_key now j1 model lm pool).1 = some (k.id, k.key_value)
        ∧ (checkout_api_key now j2 model lm
            (checkout_api_key now j1 model lm pool).2).1 = none) := by
  have hstate : ∀ k1, checkoutSelect now model pool = some k1 →
      (checkout_api_key now j1 model lm pool).2
        = pool.map fun x =>
            if x.id = k1.id then
              { x with locked_by_job_id := some j1,
                         locked_until := some (now + lm), updated_at := now }
            else x := by
    intro k1 hsel
    unfold checkout_api_key
    rw [hsel]
  have hsecond_ne : ∀ k1, checkoutSelect now model pool = some k1 →
      ∀ b, (checkout_api_key now j2 model lm
              (checkout_api_key now j1 model lm pool).2).1 = some b →
        b.1 ≠ k1.id := by
    intro k1 hsel b hb
    rw [hstate k1 hsel] at hb
    unfold checkout_api_key at hb
    cases hsel2 : checkoutSelect now model (pool.map fun x =>
        if x.id = k1.id then
          { x with locked_by_job_id := some j1,
                     locked_until := some (now + lm), updated_at := now }
        else x) with
    | none => rw [hsel2] at hb; exact absurd hb (by simp)
    | some k2 =>
      rw [hsel2] at hb
      have hb2 : (k2.id, k2.key_value) = b := Option.some.inj hb
      have hmem2 := checkoutSelect_mem now model _ k2 hsel2
      rw [List.mem_filter] at hmem2
      obtain ⟨hmem2a, helig2⟩ := hmem2
      obtain ⟨x, hxmem, hx⟩ := List.mem_map.mp hmem2a
      have hx2 : (if x.id = k1.id then
          ({ x with locked_by_job_id := some j1,
                      locked_until := some (now + lm), updated_at := now } : PoolKey)
        else x) = k2 := hx
      by_cases hc : x.id = k1.id
      · rw [if_pos hc] at hx2
        rw [← hx2] at helig2
        rw [lockedKey_not_eligible now j1 lm model x] at helig2
        exact absurd helig2 (by simp)
      · rw [if_neg hc] at hx2
        subst hx2
        rw [← hb2]
        simpa using hc
  refine ⟨?_, ?_, ?_⟩
  · intro a ha
    unfold checkout_api_key at ha ⊢
    cases hsel : checkoutSelect now model pool with
    | none => rw [hsel] at ha; exact Option.noConfusion ha
    | some k =>
      rw [hsel] at ha
      have ha2 : (k.id, k.key_value) = a := Option.some.inj ha
      have hmem := checkoutSelect_mem now model pool k hsel
      rw [List.mem_filter] at hmem
      exact ⟨k, hmem.1, hmem.2, ha2.symm,
             List.mem_map.mpr ⟨k, hmem.1, if_pos rfl⟩⟩
  · intro a b ha hb
    unfold checkout_api_key at ha
    cases hsel : checkoutSelect now model pool with
    | none => rw [hsel] at ha; exact Option.noConfusion ha
    | some k1 =>
      rw [hsel] at ha
      have ha2 : (k1.id, k1.key_value) = a := Option.some.inj ha
      have hbne := hsecond_ne k1 hsel b hb
      rw [← ha2]
      exact fun h => hbne h.symm
  · intro k hone
    have hsel : checkoutSelect now model pool = some k := by
      unfold checkoutSelect
      rw [hone]
      rfl
    have hfirst : (checkout_api_key now j1 model lm pool).1 = some (k.id, k.key_value) := by
      unfold checkout_api_key
      rw [hsel]
    refine ⟨hfirst, ?_⟩
    have hnil : (pool.map fun x =>
        if x.id = k.id then
          ({ x with locked_by_job_id := some j1,
                      locked_until := some (now + lm), updated_at := now } : PoolKey)
        else x).filter (checkoutEligible now model) = [] := by
      rw [List.filter_eq_nil_iff]
      intro y hy
      obtain ⟨x, hxmem, hx⟩ := List.mem_map.mp hy
      have hx2 : (if x.id = k.id then
          ({ x with locked_by_job_id := some j1,
                      locked_until := some (now + lm), updated_at := now } : PoolKey)
        else x) = y := hx
      by_cases hc : x.id = k.id
      · rw [if_pos hc] at hx2
        rw [← hx2]
        rw [lockedKey_not_eligible now j1 lm model x]
        simp
      · rw [if_neg hc] at hx2
        intro helig
        have hyf : y ∈ pool.filter (checkoutEligible now model) :=
          List.mem_filter.mpr ⟨hx2 ▸ hxmem, helig⟩
        rw [hone] at hyf
        have hyk : y = k := by simpa using hyf
        exact hc (by rw [hx2, hyk])
    have hsel2 : checkoutSelect now model (pool.map fun x =>
        if x.id = k.id then
          ({ x with locked_by_job_id := some j1,
                      locked_until := some (now + lm), updated_at := now } : PoolKey)
        else x) = none := by
      unfold checkoutSelect
      rw [hnil]
      rfl
    rw [hstate k hsel]
    unfold checkout_api_key
    rw [hsel2]

/-- Witness for C1 on a pool with exactly one eligible key: job 11
obtains key 1; a second checkout for job 12 at the same instant
receives the empty outcome. -/
theorem checkout_api_key_exclusive_witness :
    (samplePool.filter (checkoutEligible 100 "gemini-2.5-flash")
       = [{ id := 1, key_value := "K1", is_active := true, locked_by_job_id := none,
            locked_until := none, updated_at := 3,
            gemini_2_5_flash_exhausted := none, gemini_2_5_flash_exhausted_date := none,
            gemini_2_0_flash_exhausted := none, gemini_2_0_flash_exhausted_date := none }]) ∧
    ((checkout_api_key 100 11 "gemini-2.5-flash" 2 samplePool).1 = some (1, "K1")
      ∧ (checkout_api_key 100 12 "gemini-2.5-flash" 2
          (checkout_api_key 100 11 "gemini-2.5-flash" 2 samplePool).2).1 = none) :=
  ⟨by decide,
   (checkout_api_key_exclusive 100 11 12 2 "gemini-2.5-flash" samplePool).2.2
     { id := 1, key_value := "K1", is_active := true, locked_by_job_id := none,
       locked_until := none, updated_at := 3,
       gemini_2_5_flash_exhausted := none, gemini_2_5_flash_exhausted_date := none,
       gemini_2_0_flash_exhausted := none, gemini_2_0_flash_exhausted_date := none }
     (by decide)⟩

/-! ## C2 — attachment ordering -/

theorem segLE_of_and_ne (a b : SegMeta)
    (h : segLE a b ∧ (a.partNumber ≠ b.partNumber ∨ a.questionNumber ≠ b.questionNumber)) :
    segLT a b := by
  obtain ⟨hle, hne⟩ := h
  unfold segLE at hle
  unfold segLT
  rcases hle with h1 | ⟨h1, h2⟩
  · exact Or.inl h1
  · rcases hne with h3 | h3
    · exact absurd h1 h3
    · exact Or.inr ⟨h1, lt_of_le_of_ne h2 h3⟩

/-- Counterexample to C2: in the sync entry point
(`evaluate-speaking-submission`) the attachments are transmitted in
`filePaths` iteration order, not in sorted segment order — with the
part-2 file listed first, the sync function sends it first although the
sorted order (which the async function uses, and which the prompt
promises to the model) puts part 1 first. -/
theorem attachment_order_cex :
    syncAttachmentKeys cexFilePaths = ["part2-qB", "part1-qA"]
    ∧ (orderedSegments cexFilePaths cexQuestionById).map SegMeta.segmentKey
        = ["part1-qA", "part2-qB"]
    ∧ syncAttachmentKeys cexFilePaths
        ≠ (orderedSegments cexFilePaths cexQuestionById).map SegMeta.segmentKey
    ∧ asyncAttachmentKeys cexFilePaths cexQuestionById = ["part1-qA", "part2-qB"] := by
  refine ⟨rfl, ?_, ?_, ?_⟩ <;> decide

/-- Amended C2: the async evaluation function hands the attachments
over in the order of `orderedSegments`, which is sorted by
(partNumber, questionNumber) and is a permutation of the parsed
segments; when the (part, question) pairs are distinct, this order is
independent of the iteration order of the `filePaths` map.  The sync
evaluation function instead transmits attachments in `filePaths`
iteration order, which matches the sorted order only by accident. -/
theorem attachment_order_amended (fp fp2 : List (String × String))
    (qb : List (String × QInfo))
    (hperm : fp.Perm fp2)
    (hdistinct : (parsedSegments fp qb).Pairwise
      (fun a b => a.partNumber ≠ b.partNumber ∨ a.questionNumber ≠ b.questionNumber)) :
    asyncAttachmentKeys fp qb = (orderedSegments fp qb).map SegMeta.segmentKey
    ∧ List.Sorted segLE (orderedSegments fp qb)
    ∧ (orderedSegments fp qb).Perm (parsedSegments fp qb)
    ∧ orderedSegments fp2 qb = orderedSegments fp qb
    ∧ syncAttachmentKeys fp = fp.map Prod.fst := by
  have hsym : Symmetric (fun a b : SegMeta =>
      a.partNumber ≠ b.partNumber ∨ a.questionNumber ≠ b.questionNumber) :=
    fun a b h => h.imp Ne.symm Ne.symm
  have hpseg : (parsedSegments fp2 qb).Perm (parsedSegments fp qb) := by
    unfold parsedSegments
    exact (hperm.symm).filterMap _
  have hp1 : (orderedSegments fp qb).Perm (parsedSegments fp qb) :=
    List.perm_insertionSort segLE _
  have hp2 : (orderedSegments fp2 qb).Perm (parsedSegments fp qb) :=
    (List.perm_insertionSort segLE _).trans hpseg
  have hs1 : List.Sorted segLE (orderedSegments fp qb) :=
    List.sorted_insertionSort segLE _
  have hs2 : List.Sorted segLE (orderedSegments fp2 qb) :=
    List.sorted_insertionSort segLE _
  have hd1 : (orderedSegments fp qb).Pairwise
      (fun a b => a.partNumber ≠ b.partNumber ∨ a.questionNumber ≠ b.questionNumber) :=
    (hp1.pairwise_iff fun hab => hsym hab).mpr hdistinct
  have hd2 : (orderedSegments fp2 qb).Pairwise
      (fun a b => a.partNumber ≠ b.partNumber ∨ a.questionNumber ≠ b.questionNumber) :=
    (hp2.pairwise_iff fun hab => hsym hab).mpr hdistinct
  have hlt1 : List.Sorted segLT (orderedSegments fp qb) :=
    (hs1.and hd1).imp fun h => segLE_of_and_ne _ _ h
  have hlt2 : List.Sorted segLT (orderedSegments fp2 qb) :=
    (hs2.and hd2).imp fun h => segLE_of_and_ne _ _ h
  have heq : orderedSegments fp2 qb = orderedSegments fp qb :=
    List.eq_of_perm_of_sorted (hp2.trans hp1.symm) hlt2 hlt1
  exact ⟨rfl, hs1, hp1, heq, rfl⟩

/-- Witness for C2 (amended) on the two-file example and its permuted
iteration order: the async attachment sequence is the same sorted
sequence for both iteration orders. -/
theorem attachment_order_amended_witness :
    (cexFilePaths.Perm cexFilePathsPermuted
      ∧ (parsedSegments cexFilePaths cexQuestionById).Pairwise
          (fun a b => a.partNumber ≠ b.partNumber ∨ a.questionNumber ≠ b.questionNumber)) ∧
    (asyncAttachmentKeys cexFilePaths cexQuestionById
        = (orderedSegments cexFilePaths cexQuestionById).map SegMeta.segmentKey
      ∧ List.Sorted segLE (orderedSegments cexFilePaths cexQuestionById)
      ∧ (orderedSegments cexFilePaths cexQuestionById).Perm
          (parsedSegments cexFilePaths cexQuestionById)
      ∧ orderedSegments cexFilePathsPermuted cexQuestionById
          = orderedSegments cexFilePaths cexQuestionById
      ∧ syncAttachmentKeys cexFilePaths = cexFilePaths.map Prod.fst) :=
  ⟨⟨by decide, by decide⟩,
   attachment_order_amended cexFilePaths cexFilePathsPermuted cexQuestionById
     (by decide) (by decide)⟩

/-! ## C4 — terminal failure classification -/

theorem runModelAttempts_saw (env : CallEnv) (k m : ℕ) :
    (runModelAttempts env k m).2.1 = true →
      FailKind.transientFail ∈ (runModelAttempts env k m).2.2.2 := by
  unfold runModelAttempts
  split
  · simp
  · simp
  · split
    · simp
    · split
      · split
        · simp
        · simp
        · split <;> simp
      · simp

theorem runModelAttempts_thrown_false (env : CallEnv) (k m : ℕ) (r : Option ℕ) :
    (runModelAttempts env k m).1 = .quotaStop false r →
      FailKind.transientFail ∈ (runModelAttempts env k m).2.2.2 := by
  unfold runModelAttempts
  split
  · simp
  · simp
  · next e heq =>
    split
    · simp
    · next hq =>
      split
      · split
        · simp
        · simp
        · split <;> simp
      · intro h
        have h2 : ModelOutcome.quotaStop (errPermanent e) e.retryAfter
            = .quotaStop false r := h
        injection h2 with hp hr
        have hq2 : e.quotaLike = true := by simpa using hq
        simp [errKind, hq2, hp]

theorem runModels_saw (env : CallEnv) (k : ℕ) :
    ∀ ms : List ℕ, (runModels env k ms).2.1 = true →
      FailKind.transientFail ∈ (runModels env k ms).2.2.2 := by
  intro ms
  induction ms with
  | nil => simp [runModels]
  | cons m rest ih =>
    unfold runModels
    split
    · next st rs evs heq =>
      have hL1 := runModelAttempts_saw env k m
      rw [heq] at hL1
      exact hL1
    · next st rs evs heq =>
      have hL1 := runModelAttempts_saw env k m
      rw [heq] at hL1
      split
      · next e2 st2 rs2 evs2 heqB =>
        rw [heqB] at ih
        intro h
        have h4 : (st || st2) = true := h
        rcases (by simpa using h4 : st = true ∨ st2 = true) with h2 | h2
        · exact List.mem_append_left _ (hL1 h2)
        · exact List.mem_append_right _ (ih h2)
    · next p r st rs evs heq =>
      have hL1 := runModelAttempts_saw env k m
      rw [heq] at hL1
      split
      · intro h
        exact hL1 h
      · split
        · next e2 st2 rs2 evs2 heqB =>
          rw [heqB] at ih
          intro h
          have h4 : (st || st2) = true := h
          rcases (by simpa using h4 : st = true ∨ st2 = true) with h2 | h2
          · exact List.mem_append_left _ (hL1 h2)
          · exact List.mem_append_right _ (ih h2)

theorem runModels_thrown_false (env : CallEnv) (k : ℕ) :
    ∀ (ms : List ℕ) (r : Option ℕ), (runModels env k ms).1 = .thrown false r →
      FailKind.transientFail ∈ (runModels env k ms).2.2.2 := by
  intro ms
  induction ms with
  | nil => simp [runModels]
  | cons m rest ih =>
    intro r
    unfold runModels
    split
    · next st rs evs heq =>
      intro h
      exact absurd h (by simp)
    · next st rs evs heq =>
      split
      · next e2 st2 rs2 evs2 heqB =>
        rw [heqB] at ih
        intro h
        have h2 : e2 = KeyRunEnd.thrown false r := h
        exact List.mem_append_right _ (ih r (by rw [h2]))
    · next p rr st rs evs heq =>
      have hL2 := runModelAttempts_thrown_false env k m
      rw [heq] at hL2
      split
      · intro h
        have h2 : KeyRunEnd.thrown p rr = .thrown false r := h
        injection h2 with hp hr
        exact hL2 rr (by rw [hp])
      · split
        · next e2 st2 rs2 evs2 heqB =>
          rw [heqB] at ih
          intro h
          have h2 : e2 = KeyRunEnd.thrown false r := h
          exact List.mem_append_right _ (ih r (by rw [h2]))

theorem runKey_saw_invariant (env : CallEnv) (i : ℕ) (c : KeyCandidate)
    (st : DriverState)
    (hinv : st.sawTemporaryRateLimit = true → FailKind.transientFail ∈ st.events) :
    (runKey env i c st).sawTemporaryRateLimit = true →
      FailKind.transientFail ∈ (runKey env i c st).events := by
  unfold runKey
  split
  · exact hinv
  · split
    next kend stemp rs evs hM =>
    have hMsaw := runModels_saw env i geminiModelIdxs
    rw [hM] at hMsaw
    have hbase : (st.sawTemporaryRateLimit || stemp) = true →
        FailKind.transientFail ∈ st.events ++ evs := by
      intro h
      rcases (by simpa using h :
          st.sawTemporaryRateLimit = true ∨ stemp = true) with h2 | h2
      · exact List.mem_append_left _ (hinv h2)
      · exact List.mem_append_right _ (hMsaw h2)
    split
    · exact hbase
    · exact hbase
    · next p r =>
      split
      · exact hbase
      · next hp =>
        intro _
        have hMth := runModels_thrown_false env i geminiModelIdxs
        rw [hM] at hMth
        have hpf : p = false := by
          cases p
          · rfl
          · exact absurd rfl hp
        exact List.mem_append_right _ (hMth r (by rw [hpf]))

theorem runQueue_saw_invariant (env : CallEnv) :
    ∀ (cs : List KeyCandidate) (i : ℕ) (st : DriverState),
      (st.sawTemporaryRateLimit = true → FailKind.transientFail ∈ st.events) →
      ((runQueue env i cs st).sawTemporaryRateLimit = true →
        FailKind.transientFail ∈ (runQueue env i cs st).events) := by
  intro cs
  induction cs with
  | nil => intro i st hinv; exact hinv
  | cons c rest ih =>
    intro i st hinv
    exact ih (i + 1) (runKey env i c st) (runKey_saw_invariant env i c st hinv)

/-- Counterexample to C4: a run that encounters one temporary rate
limit and then only permanent quota/billing exhaustions — the only pool
key is even marked exhausted — is classified `RATE_LIMITED` (with the
suggested 5 s delay), not `ALL_KEYS_EXHAUSTED`, although a permanent
exhaustion occurred. -/
theorem terminal_classification_cex :
    terminalOutcome (runSyncEvaluation cexEnv cexQueue) = .rateLimited 5
    ∧ FailKind.permanentFail ∈ (runSyncEvaluation cexEnv cexQueue).events
    ∧ (runSyncEvaluation cexEnv cexQueue).markedExhausted = [7]
    ∧ terminalOutcome (runSyncEvaluation cexEnv cexQueue) ≠ .allKeysExhausted := by
  refine ⟨?_, ?_, ?_, ?_⟩ <;> decide

/-- Amended C4: with the whole queue exhausted and no success, the
request is classified `RATE_LIMITED` (with delay
`bestRetryAfterSeconds ?? 60`) exactly when the `sawTemporaryRateLimit`
flag was set — even if permanent exhaustions also occurred — and
`ALL_KEYS_EXHAUSTED` exactly when it was not; whenever the flag is set,
some failure along the way was classified transient. -/
theorem terminal_classification_amended (env : CallEnv) (queue : List KeyCandidate)
    (hns : (runSyncEvaluation env queue).success = false) :
    (terminalOutcome (runSyncEvaluation env queue)
        = .rateLimited ((bestRetryOf (runSyncEvaluation env queue).retryCandidates).getD 60)
      ↔ (runSyncEvaluation env queue).sawTemporaryRateLimit = true)
    ∧ (terminalOutcome (runSyncEvaluation env queue) = .allKeysExhausted
      ↔ (runSyncEvaluation env queue).sawTemporaryRateLimit = false)
    ∧ ((runSyncEvaluation env queue).sawTemporaryRateLimit = true →
        FailKind.transientFail ∈ (runSyncEvaluation env queue).events) := by
  refine ⟨?_, ?_, ?_⟩
  · unfold terminalOutcome
    rw [hns]
    by_cases hsaw : (runSyncEvaluation env queue).sawTemporaryRateLimit = true
    · simp [hsaw]
    · simp [hsaw]
  · unfold terminalOutcome
    rw [hns]
    by_cases hsaw : (runSyncEvaluation env queue).sawTemporaryRateLimit = true
    · simp [hsaw]
    · simp only [Bool.not_eq_true] at hsaw
      simp [hsaw]
  · exact runQueue_saw_invariant env queue 0 initDriverState (by intro h; exact absurd h (by simp [initDriverState]))

/-- Witness for C4 (amended) on an all-transient run: the outcome is
`RATE_LIMITED` with the minimum suggested delay 3 s, matching the flag,
and a transient failure is on record. -/
theorem terminal_classification_amended_witness :
    ((runSyncEvaluation allTransientEnv cexQueue).success = false) ∧
    ((terminalOutcome (runSyncEvaluation allTransientEnv cexQueue)
        = .rateLimited ((bestRetryOf
            (runSyncEvaluation allTransientEnv cexQueue).retryCandidates).getD 60)
      ↔ (runSyncEvaluation allTransientEnv cexQueue).sawTemporaryRateLimit = true)
    ∧ (terminalOutcome (runSyncEvaluation allTransientEnv cexQueue) = .allKeysExhausted
      ↔ (runSyncEvaluation allTransientEnv cexQueue).sawTemporaryRateLimit = false)
    ∧ ((runSyncEvaluation allTransientEnv cexQueue).sawTemporaryRateLimit = true →
        FailKind.transientFail ∈ (runSyncEvaluation allTransientEnv cexQueue).events)) :=
  ⟨by decide,
   terminal_classification_amended allTransientEnv cexQueue (by decide)⟩

/-! ## C3 — lazy quota staleness -/

/-- Counterexample to C3: a credential whose `gemini-2.5-flash` bucket
flag is still set from day 5, queried on day 7, is reported
not-exhausted by `isQuotaExhaustedToday` and passes the active-key-list
filter, but the `checkout_api_key` selection — which reads only the
flag, never the date — refuses it: the checkout of the sole,
otherwise-eligible credential returns the empty outcome.  Clearing the
flag (as the reset write would) makes the same key eligible. -/
theorem quota_staleness_cex :
    isQuotaExhaustedToday (some 5) 7 = false
    ∧ getActiveFilter "flash_2_5" 7 staleFlagRecord = true
    ∧ (checkout_api_key 100 11 "gemini-2.5-flash" 2 [staleFlagKey]).1 = none
    ∧ checkoutEligible 100 "gemini-2.5-flash"
        { staleFlagKey with gemini_2_5_flash_exhausted := some false } = true := by
  refine ⟨?_, ?_, ?_, ?_⟩ <;> decide

/-- Amended C3: a quota bucket whose exhausted flag was set on a date
strictly before the current date is treated as not-exhausted by the
`isExhausted` query and by the active-key-list fetch filter, without
any prior reset write; the checkout selection, however, consults only
the exhausted flag (never its date), so a stale flag keeps the
credential out of checkout until a reset write clears it. -/
theorem quota_staleness_amended (today now d : ℕ) (r : ApiKeyRecord) (k : PoolKey)
    (hd : d < today) :
    isQuotaExhaustedToday (some d) today = false
    ∧ (r.provider = "gemini" → r.is_active = true →
        r.flash_2_5_quota_exhausted = some true →
        r.flash_2_5_quota_exhausted_date = some d →
        getActiveFilter "flash_2_5" today r = true)
    ∧ (k.gemini_2_5_flash_exhausted = some true →
        checkoutEligible now "gemini-2.5-flash" k = false) := by
  refine ⟨?_, ?_, ?_⟩
  · unfold isQuotaExhaustedToday
    simp only [beq_eq_false_iff_ne]
    omega
  · intro h1 h2 h3 h4
    simp [getActiveFilter, quotaVisible, getQuotaFieldNames, readQuotaFlag,
          readQuotaDate, h1, h2, h3, h4, hd]
  · intro hflag
    simp [checkoutEligible, checkoutQuotaOk, hflag]

/-- Witness for C3 (amended) at day 7 with a bucket stale since day 5. -/
theorem quota_staleness_amended_witness :
    (5 < 7) ∧
    (isQuotaExhaustedToday (some 5) 7 = false
      ∧ (staleFlagRecord.provider = "gemini" → staleFlagRecord.is_active = true →
          staleFlagRecord.flash_2_5_quota_exhausted = some true →
          staleFlagRecord.flash_2_5_quota_exhausted_date = some 5 →
          getActiveFilter "flash_2_5" 7 staleFlagRecord = true)
      ∧ (staleFlagKey.gemini_2_5_flash_exhausted = some true →
          checkoutEligible 100 "gemini-2.5-flash" staleFlagKey = false)) :=
  ⟨by decide, quota_staleness_amended 7 100 5 staleFlagRecord staleFlagKey (by decide)⟩

end SpeakingEval

